import Mathlib

/-!
Verification of `tools/ensure_plan_untracked.py` (the PlanGuard utility).

The script queries git twice (is `PLAN.md` tracked? what status codes are
staged for it?), checks whether the file exists in the working tree, and
exits with one of four result codes, writing at most one diagnostic line to
stderr.  We embed the text processing of `staged_status_codes` and the
decision chain of `main` as pure Lean functions over `List Char` strings.
-/

namespace PlanGuard

/-- Strings are modelled as lists of characters. -/
abbrev Str := List Char

/-- Whitespace characters recognised by Python `str.strip` / `str.split`
(the ASCII range; git output never contains the exotic Unicode space
characters Python additionally accepts). -/
def isPySpace (c : Char) : Bool :=
  c == ' ' || c == '\t' || c == '\n' || c == '\r' || c == '\x0b' || c == '\x0c'

/-- Line boundaries recognised by Python `str.splitlines` (ASCII range).
Every line-break character is also Python whitespace. -/
def isLineBreak (c : Char) : Bool :=
  c == '\n' || c == '\r' || c == '\x0b' || c == '\x0c'

/-- Split a string at every character satisfying `p`; the separators are
dropped.  `splitOnPred p s` always returns at least one (possibly empty)
chunk.  Compared to Python `splitlines` this may yield extra empty chunks
(for a trailing newline, for `\r\n` pairs, or on the empty string), but the
consumer skips empty lines, so the difference is unobservable. -/
def splitOnPred (p : Char → Bool) : Str → List Str
  | [] => [[]]
  | c :: rest =>
    if p c then [] :: splitOnPred p rest
    else
      match splitOnPred p rest with
      | [] => [[c]]
      | l :: ls => (c :: l) :: ls

/-- Model of `stdout.splitlines()`. -/
def splitlines (s : Str) : List Str := splitOnPred isLineBreak s

/-- Model of Python `line.strip()`: remove leading and trailing whitespace. -/
def pyStrip (s : Str) : Str :=
  ((s.dropWhile isPySpace).reverse.dropWhile isPySpace).reverse

/-- Helper for `pySplit`: `acc` holds the characters of the current word in
reverse order. -/
def pySplitAux (acc : Str) : Str → List Str
  | [] => if acc = [] then [] else [acc.reverse]
  | c :: rest =>
    if isPySpace c then
      (if acc = [] then [] else [acc.reverse]) ++ pySplitAux [] rest
    else
      pySplitAux (c :: acc) rest

/-- Model of Python `line.split()` with no argument: split on runs of
whitespace, discarding empty pieces. -/
def pySplit (s : Str) : List Str := pySplitAux [] s

/-- The loop body of `staged_status_codes`, one iteration per output line:
strip the line, skip it when empty, otherwise add the first
whitespace-delimited token to the accumulated set.  `none` models the
`IndexError` Python would raise at `parts[0]` if `line.split()` were empty. -/
def collectStatuses : List Str → Finset Str → Option (Finset Str)
  | [], statuses => some statuses
  | rawLine :: rest, statuses =>
    let line := pyStrip rawLine
    if line = [] then collectStatuses rest statuses
    else
      match pySplit line with
      | [] => none
      | status :: _ => collectStatuses rest (insert status statuses)

/-- Model of `staged_status_codes()`: parse the stdout of
`git diff --cached --name-status -- PLAN.md` into the set of staged status
codes. -/
def staged_status_codes (stdout : Str) : Option (Finset Str) :=
  collectStatuses (splitlines stdout) ∅

/-- Model of `plan_is_tracked()`: `git ls-files --error-unmatch PLAN.md`
exits 0 exactly when the file is tracked. -/
def plan_is_tracked (lsFilesReturncode : Int) : Bool :=
  lsFilesReturncode == 0

/-- The five outcomes of the decision chain, named as in the specification;
they are in bijection with the return points of `main`. -/
inductive Outcome
  | TRACKED
  | INVALID_STAGED_CHANGE
  | OK_STAGED_DELETE
  | MISSING
  | OK
deriving DecidableEq

/-- The observable result of one run: the branch taken, the process exit
code, and the diagnostic lines written to stderr. -/
structure RunResult where
  outcome : Outcome
  exitCode : Nat
  stderr : List Str
deriving DecidableEq

/-- The diagnostic of the TRACKED branch. -/
def trackedDiagnostic : Str :=
  ("PLAN.md is tracked in git; remove it with `git rm --cached PLAN.md` and ensure it stays ignored.\n").data

/-- The diagnostic of the INVALID_STAGED_CHANGE branch. -/
def stagedDiagnostic : Str :=
  ("PLAN.md has staged changes; ensure it remains untracked before committing.\n").data

/-- The diagnostic of the MISSING branch. -/
def missingDiagnostic : Str :=
  ("PLAN.md is missing from the working tree; create the planning scratchpad if the process requires it.\n").data

/-- The status code `"D"` (a staged deletion). -/
def deletedCode : Str := ['D']

/-- Model of `main()` after its two git queries have been interpreted:
`tracked` is the result of `plan_is_tracked()`, `staged` the set returned by
`staged_status_codes()`, and `planExists` the result of
`PLAN_PATH.exists()`.  The branch structure mirrors the source exactly. -/
def mainRun (tracked : Bool) (staged : Finset Str) (planExists : Bool) : RunResult :=
  if tracked then
    { outcome := .TRACKED, exitCode := 1, stderr := [trackedDiagnostic] }
  else
    let invalid_statuses := staged \ {deletedCode}
    if invalid_statuses.Nonempty then
      { outcome := .INVALID_STAGED_CHANGE, exitCode := 2, stderr := [stagedDiagnostic] }
    else if deletedCode ∈ staged then
      { outcome := .OK_STAGED_DELETE, exitCode := 0, stderr := [] }
    else if ¬ planExists then
      { outcome := .MISSING, exitCode := 3, stderr := [missingDiagnostic] }
    else
      { outcome := .OK, exitCode := 0, stderr := [] }

/-- The whole script: interpret the `ls-files` exit code, parse the staged
diff output, and run the decision chain.  `none` would mean the status-code
parser faulted (it never does, see below). -/
def runGuard (lsFilesReturncode : Int) (diffStdout : Str) (planExists : Bool) :
    Option RunResult :=
  (staged_status_codes diffStdout).map
    (fun staged => mainRun (plan_is_tracked lsFilesReturncode) staged planExists)

/-- The leading whitespace-delimited token of a line. -/
def firstToken (l : Str) : Str :=
  (l.dropWhile isPySpace).takeWhile (fun c => !isPySpace c)

/-- The specification's description of the parsed set: the distinct leading
tokens of the non-empty lines of the output. -/
def leadingTokens (stdout : Str) : Finset Str :=
  (((splitlines stdout).filter (fun l => !(pyStrip l).isEmpty)).map firstToken).toFinset

/-- The result-code mapping of the specification's outcome table. -/
def specCode : Outcome → Nat
  | .OK => 0
  | .OK_STAGED_DELETE => 0
  | .TRACKED => 1
  | .INVALID_STAGED_CHANGE => 2
  | .MISSING => 3

theorem pySplit_dropWhile (s : Str) :
    pySplit (s.dropWhile isPySpace) = pySplit s := by
  induction s with
  | nil => rfl
  | cons c rest ih =>
    by_cases hc : isPySpace c
    · rw [List.dropWhile_cons, if_pos hc, ih]
      simp [pySplit, pySplitAux, hc]
    · rw [List.dropWhile_cons, if_neg hc]

theorem pySplitAux_allSpace (acc : Str) (s : Str)
    (h : ∀ c ∈ s, isPySpace c = true) :
    pySplitAux acc s = if acc = [] then [] else [acc.reverse] := by
  induction s generalizing acc with
  | nil => rfl
  | cons c rest ih =>
    have hc : isPySpace c = true := h c (by simp)
    have hrest : ∀ d ∈ rest, isPySpace d = true := fun d hd => h d (by simp [hd])
    rw [pySplitAux, if_pos hc, ih [] hrest]
    simp

theorem pySplitAux_append_allSpace (acc : Str) (s ws : Str)
    (h : ∀ c ∈ ws, isPySpace c = true) :
    pySplitAux acc (s ++ ws) = pySplitAux acc s := by
  induction s generalizing acc with
  | nil =>
    rw [List.nil_append, pySplitAux_allSpace acc ws h, pySplitAux]
  | cons c rest ih =>
    by_cases hc : isPySpace c
    · rw [List.cons_append, pySplitAux, if_pos hc, ih, pySplitAux, if_pos hc]
    · rw [List.cons_append, pySplitAux, if_neg hc, ih, pySplitAux, if_neg hc]

theorem dropWhile_eq_pyStrip_append (s : Str) :
    ∃ ws, (∀ c ∈ ws, isPySpace c = true) ∧
      s.dropWhile isPySpace = pyStrip s ++ ws := by
  refine ⟨((s.dropWhile isPySpace).reverse.takeWhile isPySpace).reverse, ?_, ?_⟩
  · intro c hc
    rw [List.mem_reverse] at hc
    exact List.mem_takeWhile_imp hc
  · unfold pyStrip
    conv_lhs => rw [← List.reverse_reverse (s.dropWhile isPySpace)]
    conv_lhs =>
      rw [← List.takeWhile_append_dropWhile (p := isPySpace)
        (l := (s.dropWhile isPySpace).reverse)]
    rw [List.reverse_append]

theorem pySplit_pyStrip (s : Str) : pySplit (pyStrip s) = pySplit s := by
  obtain ⟨ws, hws, hdec⟩ := dropWhile_eq_pyStrip_append s
  have h1 : pySplit (pyStrip s ++ ws) = pySplit (pyStrip s) :=
    pySplitAux_append_allSpace [] (pyStrip s) ws hws
  rw [← h1, ← hdec, pySplit_dropWhile]

theorem dropWhile_head_not (p : Char → Bool) (s : Str) (c : Char) (rest : Str)
    (h : s.dropWhile p = c :: rest) : p c = false := by
  induction s with
  | nil => simp at h
  | cons a s ih =>
    rw [List.dropWhile_cons] at h
    by_cases ha : p a
    · rw [if_pos ha] at h
      exact ih h
    · rw [if_neg ha] at h
      cases h
      simpa using ha

theorem pyStrip_eq_nil_iff (s : Str) :
    pyStrip s = [] ↔ s.dropWhile isPySpace = [] := by
  unfold pyStrip
  constructor
  · intro h
    cases hd : s.dropWhile isPySpace with
    | nil => rfl
    | cons c rest =>
      have hc := dropWhile_head_not isPySpace s c rest hd
      rw [hd] at h
      rw [List.reverse_eq_nil_iff, List.dropWhile_eq_nil_iff] at h
      have := h c (by simp)
      rw [hc] at this
      exact absurd this (by simp)
  · intro h
    rw [h]
    rfl

theorem pySplitAux_head (acc : Str) (s : Str) (hacc : acc ≠ []) :
    (pySplitAux acc s).head? =
      some (acc.reverse ++ s.takeWhile (fun c => !isPySpace c)) := by
  induction s generalizing acc with
  | nil =>
    rw [pySplitAux, if_neg hacc]
    simp
  | cons c rest ih =>
    by_cases hc : isPySpace c
    · rw [pySplitAux, if_pos hc, if_neg hacc, List.takeWhile_cons]
      simp [hc]
    · rw [pySplitAux, if_neg hc, ih (c :: acc) (by simp), List.takeWhile_cons]
      simp [hc]

theorem pySplit_head (s : Str) (h : s.dropWhile isPySpace ≠ []) :
    (pySplit s).head? = some (firstToken s) := by
  rw [← pySplit_dropWhile]
  cases hd : s.dropWhile isPySpace with
  | nil => exact absurd hd h
  | cons c rest =>
    have hc := dropWhile_head_not isPySpace s c rest hd
    rw [pySplit, pySplitAux, if_neg (by simp [hc]),
      pySplitAux_head [c] rest (by simp)]
    unfold firstToken
    rw [hd, List.takeWhile_cons]
    simp [hc]

theorem collectStatuses_eq (lines : List Str) (acc : Finset Str) :
    collectStatuses lines acc =
      some (acc ∪ ((lines.filter (fun l => !(pyStrip l).isEmpty)).map
        firstToken).toFinset) := by
  induction lines generalizing acc with
  | nil => simp [collectStatuses]
  | cons l rest ih =>
    by_cases hl : pyStrip l = []
    · rw [collectStatuses]
      simp only [hl, if_pos rfl, List.filter_cons]
      rw [ih]
      simp [hl]
    · have hdw : l.dropWhile isPySpace ≠ [] :=
        fun hd => hl ((pyStrip_eq_nil_iff l).mpr hd)
      have hhead : (pySplit (pyStrip l)).head? = some (firstToken l) := by
        rw [pySplit_pyStrip]
        exact pySplit_head l hdw
      rw [collectStatuses]
      simp only [if_neg hl]
      cases hp : pySplit (pyStrip l) with
      | nil => rw [hp] at hhead; simp at hhead
      | cons t ts =>
        rw [hp] at hhead
        simp only [List.head?_cons, Option.some.injEq] at hhead
        subst hhead
        show collectStatuses rest (insert (firstToken l) acc) = _
        rw [ih]
        have hfil : (!(pyStrip l).isEmpty) = true := by
          simp [List.isEmpty_eq_true, hl]
        rw [List.filter_cons, if_pos hfil, List.map_cons, List.toFinset_cons,
          Finset.insert_union, Finset.union_insert]

theorem staged_status_codes_eq (stdout : Str) :
    staged_status_codes stdout = some (leadingTokens stdout) := by
  rw [staged_status_codes, collectStatuses_eq, leadingTokens]
  simp

theorem mainRun_invalid_of_mem (staged : Finset Str) (planExists : Bool) (t : Str)
    (ht : t ∈ staged) (hne : t ≠ deletedCode) :
    mainRun false staged planExists =
      { outcome := .INVALID_STAGED_CHANGE, exitCode := 2,
        stderr := [stagedDiagnostic] } := by
  have hnonempty : (staged \ {deletedCode}).Nonempty :=
    ⟨t, Finset.mem_sdiff.mpr ⟨ht, by simp [hne]⟩⟩
  simp [mainRun, hnonempty]

/-- Claim C1: whenever `plan_is_tracked()` reports the file as tracked, `main`
returns outcome TRACKED with result code 1 and the tracked diagnostic,
regardless of the staged set and of working-tree presence; the later checks
cannot influence the result. -/
theorem tracked_always_wins (staged : Finset Str) (planExists : Bool) :
    mainRun true staged planExists =
      { outcome := .TRACKED, exitCode := 1, stderr := [trackedDiagnostic] } := rfl

/-- Claim C2: when the file is untracked and the staged set holds any status
code other than `"D"` (even if `"D"` is also present), `main` returns outcome
INVALID_STAGED_CHANGE with result code 2. -/
theorem invalid_staged_change (staged : Finset Str) (planExists : Bool)
    (h : ∃ t ∈ staged, t ≠ deletedCode) :
    mainRun false staged planExists =
      { outcome := .INVALID_STAGED_CHANGE, exitCode := 2,
        stderr := [stagedDiagnostic] } := by
  obtain ⟨t, ht, hne⟩ := h
  exact mainRun_invalid_of_mem staged planExists t ht hne

/-- Witness for C2, at the staged set containing both `"D"` and `"M"`. -/
theorem invalid_staged_change_witness :
    mainRun false {deletedCode, ['M']} true =
      { outcome := .INVALID_STAGED_CHANGE, exitCode := 2,
        stderr := [stagedDiagnostic] } :=
  invalid_staged_change {deletedCode, ['M']} true ⟨['M'], by decide, by decide⟩

/-- Claim C3: when the file is untracked and the staged set is exactly
`{"D"}`, `main` returns outcome OK_STAGED_DELETE with result code 0 and no
diagnostic, whether or not the file exists in the working tree. -/
theorem ok_staged_delete (planExists : Bool) :
    mainRun false {deletedCode} planExists =
      { outcome := .OK_STAGED_DELETE, exitCode := 0, stderr := [] } := by
  cases planExists <;> decide

/-- Claim C4: when the file is untracked, the staged set is empty and the
file exists in the working tree, `main` returns outcome OK with result code 0
and no diagnostic. -/
theorem ok_steady_state :
    mainRun false ∅ true = { outcome := .OK, exitCode := 0, stderr := [] } := by
  decide

/-- Claim C5: when the file is untracked, the staged set is empty and the
file does not exist in the working tree, `main` returns outcome MISSING with
result code 3 and one diagnostic line on stderr. -/
theorem missing_from_working_tree :
    mainRun false ∅ false =
      { outcome := .MISSING, exitCode := 3, stderr := [missingDiagnostic] } := by
  decide

/-- Claim C6: for every output of the staged-differences query,
`staged_status_codes` succeeds and returns exactly the set of distinct
leading whitespace-delimited tokens of the non-empty lines of that output. -/
theorem staged_status_codes_spec (stdout : Str) :
    staged_status_codes stdout = some (leadingTokens stdout) :=
  staged_status_codes_eq stdout

/-- Claim C7: every run exits with code 0, 1, 2 or 3, the code agrees with
the specification's outcome table, and a diagnostic line is written exactly
when the code is non-zero — none for code 0, exactly one otherwise. -/
theorem exit_code_diagnostic_mapping (tracked planExists : Bool)
    (staged : Finset Str) :
    ((mainRun tracked staged planExists).exitCode = 0 ∨
     (mainRun tracked staged planExists).exitCode = 1 ∨
     (mainRun tracked staged planExists).exitCode = 2 ∨
     (mainRun tracked staged planExists).exitCode = 3) ∧
    (mainRun tracked staged planExists).exitCode =
      specCode (mainRun tracked staged planExists).outcome ∧
    (mainRun tracked staged planExists).stderr.length =
      (if (mainRun tracked staged planExists).exitCode = 0 then 0 else 1) := by
  simp only [mainRun]
  split_ifs <;> simp_all [specCode]

/-- Claim C8: evaluation is a pure function of the two query results and the
working-tree state — equal inputs give equal results, with no hidden state
across invocations. -/
theorem deterministic_evaluation (rc rc' : Int) (stdout stdout' : Str)
    (e e' : Bool) (h1 : rc = rc') (h2 : stdout = stdout') (h3 : e = e') :
    runGuard rc stdout e = runGuard rc' stdout' e' := by
  subst h1
  subst h2
  subst h3
  rfl

/-- Witness for C8, at a concrete tracked state with empty diff output. -/
theorem deterministic_evaluation_witness :
    runGuard 0 [] true = runGuard 0 [] true :=
  deterministic_evaluation 0 0 [] [] true true rfl rfl rfl

/-- Claim C9: a staged deletion is recognised by exact equality with `"D"`;
any untracked invocation whose staged set holds a token differing from `"D"`
(such as `"DM"`, `"d"` or `"R100"`) yields INVALID_STAGED_CHANGE with code 2
and never OK_STAGED_DELETE. -/
theorem deleted_is_exact_match (staged : Finset Str) (planExists : Bool)
    (t : Str) (ht : t ∈ staged) (hne : t ≠ deletedCode) :
    (mainRun false staged planExists).outcome = .INVALID_STAGED_CHANGE ∧
    (mainRun false staged planExists).exitCode = 2 ∧
    (mainRun false staged planExists).outcome ≠ .OK_STAGED_DELETE := by
  rw [mainRun_invalid_of_mem staged planExists t ht hne]
  exact ⟨rfl, rfl, by decide⟩

/-- Witness for C9, at the staged sets `{"DM"}`, `{"d"}` and `{"R100"}`. -/
theorem deleted_is_exact_match_witness :
    ((mainRun false {['D', 'M']} true).outcome = .INVALID_STAGED_CHANGE ∧
     (mainRun false {['D', 'M']} true).exitCode = 2 ∧
     (mainRun false {['D', 'M']} true).outcome ≠ .OK_STAGED_DELETE) ∧
    ((mainRun false {['d']} false).outcome = .INVALID_STAGED_CHANGE ∧
     (mainRun false {['d']} false).exitCode = 2 ∧
     (mainRun false {['d']} false).outcome ≠ .OK_STAGED_DELETE) ∧
    ((mainRun false {['R', '1', '0', '0']} true).outcome =
        .INVALID_STAGED_CHANGE ∧
     (mainRun false {['R', '1', '0', '0']} true).exitCode = 2 ∧
     (mainRun false {['R', '1', '0', '0']} true).outcome ≠
        .OK_STAGED_DELETE) :=
  ⟨deleted_is_exact_match {['D', 'M']} true ['D', 'M'] (by decide) (by decide),
   deleted_is_exact_match {['d']} false ['d'] (by decide) (by decide),
   deleted_is_exact_match {['R', '1', '0', '0']} true ['R', '1', '0', '0']
     (by decide) (by decide)⟩

/-- Claim C10: the status-code scan is total over every query output (the
first-token extraction never faults), lines of pure whitespace are skipped
and contribute no token, and a line processed twice contributes the same
single set element as processing it once. -/
theorem status_scan_total_and_set_semantics (stdout wsLine dup : Str)
    (lines : List Str) (acc : Finset Str)
    (hws : ∀ c ∈ wsLine, isPySpace c = true) :
    (staged_status_codes stdout).isSome ∧
    collectStatuses (wsLine :: lines) acc = collectStatuses lines acc ∧
    collectStatuses (dup :: dup :: lines) acc =
      collectStatuses (dup :: lines) acc := by
  have hstrip : pyStrip wsLine = [] :=
    (pyStrip_eq_nil_iff wsLine).mpr (List.dropWhile_eq_nil_iff.mpr hws)
  refine ⟨?_, ?_, ?_⟩
  · rw [staged_status_codes_eq]
    rfl
  · rw [collectStatuses_eq, collectStatuses_eq, List.filter_cons]
    simp [hstrip]
  · rw [collectStatuses_eq, collectStatuses_eq]
    by_cases hd : pyStrip dup = []
    · simp [List.filter_cons, hd]
    · have hfil : (!(pyStrip dup).isEmpty) = true := by
        simp [List.isEmpty_eq_true, hd]
      simp [List.filter_cons, hfil]

/-- Witness for C10, at the diff output for a staged deletion, a
whitespace-only line, and a duplicated modification line. -/
theorem status_scan_total_witness :
    (staged_status_codes (("D\tPLAN.md\n").data)).isSome ∧
    collectStatuses [[' ', '\t']] ∅ = collectStatuses [] ∅ ∧
    collectStatuses [['M'], ['M']] ∅ = collectStatuses [['M']] ∅ :=
  status_scan_total_and_set_semantics (("D\tPLAN.md\n").data) [' ', '\t']
    ['M'] [] ∅ (by decide)

end PlanGuard
